import Mathlib

/-!
Shallow embedding of the `heatmap_bff` spatial aggregation pipeline and
forecast engine (files `app/repositories/loader.py`,
`app/repositories/aggregates_repo.py`, `app/services/forecast.py`), together
with theorems settling the frozen claims about the natural-language
specification.

Modelling conventions:
* Python floats are modelled as real numbers (`ℝ`); configuration floats,
  which also appear in decidable cache keys, are modelled as rationals and
  coerced into `ℝ` where arithmetic happens.
* Python ints are `ℕ` (counts) or `ℤ` (horizons, which may be negative
  before validation).
* `datetime.utcnow()` instants are abstract ticks (`ℕ`); the cache's minute
  bucket is a separate abstract `ℕ` supplied by the caller.
* The h3 library is external to the repository (the spec's non-goals treat
  it as an opaque collaborator), so cell-id functions (`k_ring`) are
  parameters, and cell ids are plain strings.
* Raised Python exceptions are `Except` errors; a JSON payload whose keys
  may be absent (the empty-table branch of `generate_forecast` builds a
  dict without the metadata keys) uses `Option` fields.
-/

namespace HeatmapBff

/-! ### Configuration (`app/core/config.py`), default field values -/

structure Settings where
  suppress_k : ℕ := 20
  /-- FORECAST_DECAY_PER_HOUR, default 0.15. -/
  forecast_decay_per_hour : ℚ := 15/100
  /-- FORECAST_MAX_MINUTES, default 720. -/
  forecast_max_minutes : ℤ := 720
  deriving DecidableEq

def defaultSettings : Settings := {}

/-! ### Loader column validation (`app/repositories/loader.py`) -/

/-- `REQUIRED_COLUMNS = ["randomized_id", "lat", "lng", "alt", "spd", "azm"]`. -/
def REQUIRED_COLUMNS : List String := ["randomized_id", "lat", "lng", "alt", "spd", "azm"]

/-- `_validate_columns`: raises `ValueError(f"Missing required columns: {missing}")`
when `missing = [c for c in REQUIRED_COLUMNS if c not in df.columns]` is nonempty.
The error carries the missing-column list. -/
def validate_columns (cols : List String) : Except (List String) Unit :=
  let missing := REQUIRED_COLUMNS.filter (fun c => ¬ c ∈ cols)
  match missing with
  | [] => .ok ()
  | m => .error m

/-- A raw CSV row, restricted to the three fields the loader actually reads;
a `none` field is a NaN/missing value in that row. -/
structure RawRow where
  randomized_id : Option String
  lat : Option ℚ
  lng : Option ℚ
  deriving DecidableEq

/-- `chunk.dropna(subset=["randomized_id", "lat", "lng"])`: rows missing any of
the three used values are dropped silently. -/
def dropnaRequired (rows : List RawRow) : List RawRow :=
  rows.filter (fun r => r.randomized_id.isSome && r.lat.isSome && r.lng.isSome)

/-! ### Streaming accumulation (`load_or_precomputed`, raw-CSV path)

After binning, each point contributes a pair `(cell, trip)`:
`bucket["points"] += 1; bucket["ids"].add(trip)`. The accumulator maps each
cell id to its running point count and distinct-id set. -/

/-- One cell's accumulator bucket: `{"points": ..., "ids": ...}`. -/
structure Bucket where
  points : ℕ
  ids : Finset String

def Bucket.empty : Bucket := ⟨0, ∅⟩

/-- Dictionary update `accum[res][h] = bucket` for one resolution's accumulator,
modelled as a function from cell ids to buckets. -/
def accumStep (acc : String → Bucket) (pt : String × String) : String → Bucket :=
  fun c =>
    if c = pt.1 then
      let b := acc pt.1
      ⟨b.points + 1, insert pt.2 b.ids⟩
    else acc c

/-- Accumulate a stream of already-binned `(cell, trip)` pairs. -/
def accumulate (pts : List (String × String)) : String → Bucket :=
  pts.foldl accumStep (fun _ => Bucket.empty)

/-! ### Aggregate rows and the precomputed path -/

/-- A finalized cell-aggregate row as used by the forecast engine
(`h3`, `point_count`, `unique_trips`; centers are irrelevant to the claims).
The counts are signed integers: pandas stores the CSV count columns as
int64, and the precomputed ingestion path copies them through with no value
check, so negative counts are representable in the source. -/
structure Row where
  h3 : String
  point_count : ℤ
  unique_trips : ℤ
  deriving DecidableEq

/-- A parsed row of a precomputed aggregate table (after alias normalization
of `h3_index`/`resolution` column names); the count columns are raw int64
values. -/
structure PreRow where
  h3 : String
  res : ℕ
  point_count : ℤ
  unique_trips : ℤ
  deriving DecidableEq

/-- The precomputed path of `load_or_precomputed`: `pre.groupby("res")` then
`_register_res(res, grp)`; the count columns are stored as-is (the
registration step only adds score columns). -/
def precomputedTableFor (rows : List PreRow) (res : ℕ) : List Row :=
  (rows.filter (fun r => r.res = res)).map (fun r => ⟨r.h3, r.point_count, r.unique_trips⟩)

/-- Finalization of the streaming path for the cells of one resolution:
`point_count = bucket.points`, `unique_trips = len(bucket.ids)` (the
accumulated values are genuine nonnegative counts). -/
def finalizeCell (acc : String → Bucket) (c : String) : Row :=
  ⟨c, ((acc c).points : ℤ), ((acc c).ids.card : ℤ)⟩

/-! ### Aggregate store (`app/repositories/aggregates_repo.py`) -/

structure RepoState where
  store : List (ℕ × List Row)
  /-- `loaded_at : datetime | None`, abstracted to an `ℕ` tick. -/
  loaded_at : Option ℕ

def RepoState.empty : RepoState := ⟨[], none⟩

/-- `set_resolution`: `self._store[agg.res] = agg` and
`if self.loaded_at is None: self.loaded_at = datetime.utcnow()`. -/
def set_resolution (st : RepoState) (res : ℕ) (table : List Row) (now : ℕ) : RepoState :=
  { store := (res, table) :: st.store.filter (fun e => e.1 ≠ res),
    loaded_at :=
      match st.loaded_at with
      | none => some now
      | some t0 => some t0 }

/-- `get_resolution`: raises `KeyError` when the resolution was never loaded. -/
def get_resolution (st : RepoState) (res : ℕ) : Option (List Row) :=
  (st.store.find? (fun e => e.1 = res)).map (fun e => e.2)

/-! ### Horizon validation (`generate_forecast`, lines 121-124) -/

/-- Python `sorted(set(horizons))`. -/
def dedupSortInt (hs : List ℤ) : List ℤ :=
  (hs.dedup).insertionSort (· ≤ ·)

inductive ForecastError where
  /-- `ValueError(f"Invalid horizon {h}")`. -/
  | invalidHorizon (h : ℤ)
  /-- `KeyError(f"Resolution {res} not loaded")` from the aggregate store. -/
  | notLoaded (res : ℕ)
  deriving DecidableEq

/-- `horizons = sorted(set(int(h) for h in horizons))` followed by
`for h in horizons: if h < 1 or h > settings.forecast_max_minutes: raise`. -/
def validateHorizons (s : Settings) (horizons : List ℤ) : Except ForecastError (List ℤ) :=
  match (dedupSortInt horizons).find? (fun h => h < 1 || s.forecast_max_minutes < h) with
  | some h => .error (.invalidHorizon h)
  | none => .ok (dedupSortInt horizons)

/-! ### Forecast engine numerics (`app/services/forecast.py`)

The hub and corridor cell sets come from `_load_hubs` / `_load_corridor_cells`,
which read artifact CSVs through the external enrichment loader; they enter
the embedding as plain lists of cell ids. Likewise `h3.k_ring(cell, 1)` is a
parameter `kRing`. -/

/-- `alpha = 0.7  # smoothing weight`. -/
def alphaSmoothing : ℝ := 0.7

/-- `corridor_boost = 0.10`. -/
def corridorBoost : ℝ := 0.10

/-- `corridor_tau_hours = 0.5`. -/
def corridorTauHours : ℝ := 0.5

/-- `int(df.loc[df["h3"] == n, "point_count"].iloc[0])`: point count of the
first table row carrying the given cell id. -/
def lookupPC (table : List Row) (c : String) : ℤ :=
  ((table.find? (fun r => r.h3 = c)).map (fun r => r.point_count)).getD 0

/-- `[n for n in h3.k_ring(h3cell, 1) if n in cell_set and n != h3cell]`. -/
def neighborsOf (kRing : String → List String) (table : List Row) (c : String) :
    List String :=
  (kRing c).filter (fun n => (table.map (fun r => r.h3)).contains n && n ≠ c)

/-- `statistics.mean([...]) if neighs else pc` followed by
`smoothed = alpha * pc + (1 - alpha) * neigh_mean`. -/
noncomputable def smoothedOf (kRing : String → List String) (table : List Row)
    (c : String) (pc : ℤ) : ℝ :=
  let neigh_mean : ℝ :=
    match neighborsOf kRing table c with
    | [] => pc
    | ns => ((ns.map (fun n => (lookupPC table n : ℝ))).sum) / ns.length
  alphaSmoothing * pc + (1 - alphaSmoothing) * neigh_mean

/-- `statistics.quantiles(data, n=100)[i-1]` with the default `exclusive`
method: sort the data, set `m = len + 1`, `j = clamp(i*m // 100, 1, len-1)`,
`delta = i*m - j*100`, and interpolate
`(data[j-1]*(100-delta) + data[j]*delta) / 100`. -/
noncomputable def pyQuantileExclusive (data : List ℤ) (i : ℕ) : ℝ :=
  let a := data.insertionSort (· ≤ ·)
  let ld := a.length
  let m := ld + 1
  let j := min (max (i * m / 100) 1) (ld - 1)
  let delta : ℤ := (i * m : ℤ) - (j * 100 : ℤ)
  ((a.getD (j - 1) 0 : ℝ) * ((100 : ℝ) - (delta : ℝ)) + (a.getD j 0 : ℝ) * (delta : ℝ)) / 100

/-- `q50 = statistics.quantiles(counts, n=100)[49] if len(counts) > 1 else 0`. -/
noncomputable def q50Of (counts : List ℤ) : ℝ :=
  if counts.length > 1 then pyQuantileExclusive counts 50 else 0

/-- `q80 = statistics.quantiles(counts, n=100)[79] if len(counts) > 1 else q50`. -/
noncomputable def q80Of (counts : List ℤ) : ℝ :=
  if counts.length > 1 then pyQuantileExclusive counts 80 else q50Of counts

/-- `q95 = statistics.quantiles(counts, n=100)[94] if len(counts) > 1 else q80`. -/
noncomputable def q95Of (counts : List ℤ) : ℝ :=
  if counts.length > 1 then pyQuantileExclusive counts 95 else q80Of counts

/-- `decay_for(pc, h3cell)`: density-tier scaling of the base decay, then the
hub clamp `d = min(d, base_decay * 0.5)`. -/
noncomputable def decay_for (s : Settings) (q50 q80 q95 : ℝ) (hubs : List String)
    (pc : ℤ) (c : String) : ℝ :=
  let base_decay : ℝ := (s.forecast_decay_per_hour : ℝ)
  let d :=
    if (pc : ℝ) ≥ q95 then base_decay * 0.4
    else if (pc : ℝ) ≥ q80 then base_decay * 0.7
    else if (pc : ℝ) ≥ q50 then base_decay * 1.0
    else base_decay * 1.3
  if hubs.contains c then min d (base_decay * 0.5) else d

/-- One entry of the `enriched` list built in the first pass
(lines 183-207 of `forecast.py`). -/
structure Enriched where
  h3 : String
  point_count : ℤ
  smoothed : ℝ
  unique_trips : ℤ
  decay : ℝ
  is_corridor : Bool
  is_hub : Bool
  suppressed : Bool

/-- First pass over `df.iterrows()`. -/
noncomputable def enrich (s : Settings) (kRing : String → List String)
    (hubs corridors : List String) (table : List Row) : List Enriched :=
  let counts := table.map (fun r => r.point_count)
  let q50 := q50Of counts
  let q80 := q80Of counts
  let q95 := q95Of counts
  table.map (fun r =>
    { h3 := r.h3
      point_count := r.point_count
      smoothed := smoothedOf kRing table r.h3 r.point_count
      unique_trips := r.unique_trips
      decay := decay_for s q50 q80 q95 hubs r.point_count r.h3
      is_corridor := corridors.contains r.h3
      is_hub := hubs.contains r.h3
      suppressed := decide (r.point_count < (s.suppress_k : ℤ)) ||
        decide (r.unique_trips < (s.suppress_k : ℤ)) })

/-- `predicted = float(base_val) * math.exp(-lam * hours)` with the corridor
short-horizon persistence boost (lines 215-222). -/
noncomputable def rawPredict (er : Enriched) (h : ℤ) : ℝ :=
  let hours : ℝ := (h : ℝ) / 60
  let predicted := er.smoothed * Real.exp (-(er.decay * hours))
  if er.is_corridor = true ∧ hours ≤ 0.5 then
    predicted * (1 + corridorBoost * Real.exp (-(hours / corridorTauHours)))
  else predicted

/-- `_poisson_ci(mean)`: `(0, 0)` for `mean <= 0`, otherwise the normal
approximation clipped below at zero. -/
noncomputable def poisson_ci (mean : ℝ) : ℝ × ℝ :=
  if mean ≤ 0 then (0, 0)
  else (max 0 (mean - 1.96 * Real.sqrt mean), mean + 1.96 * Real.sqrt mean)

/-- Tier-based CI scale (lines 225-231). -/
noncomputable def ciScaleFor (q50 q95 : ℝ) (pc : ℤ) : ℝ :=
  if (pc : ℝ) ≥ q95 then 0.8
  else if (pc : ℝ) < q50 then 1.3
  else 1.0

/-- `half_width = (upper - lower) / 2 * scale` (line 233), with
`(lower, upper) = _poisson_ci(predicted)`. -/
noncomputable def halfWidthFor (scale mid : ℝ) : ℝ :=
  let lu := poisson_ci mid
  (lu.2 - lu.1) / 2 * scale

/-- `lower = max(0.0, mid - half_width); upper = mid + half_width`
(lines 234-235). -/
noncomputable def ciBoundsFor (scale mid : ℝ) : ℝ × ℝ :=
  (max 0 (mid - halfWidthFor scale mid), mid + halfWidthFor scale mid)

/-- The `preds_per_cell` dictionary row for a cell id: keyed writes in table
order, so the last row with that id wins. -/
def predRowFor (ers : List Enriched) (c : String) : Option Enriched :=
  ers.reverse.find? (fun er => er.h3 = c)

/-- `max_pred_by_h[h]`: starts at `0.0`, updated by `if predicted > cur`
for every enriched row. -/
noncomputable def maxPredByH (ers : List Enriched) (h : ℤ) : ℝ :=
  ers.foldl (fun acc er =>
    let p := rawPredict er h
    if p > acc then p else acc) 0

/-- `vals = [preds_per_cell[c][h]["predicted"] for c in preds_per_cell]`:
one predicted value per distinct cell id. (CPython iterates keys in
first-insertion order; only the multiset of values matters downstream, so the
distinct ids are taken via `dedup`.) -/
noncomputable def predValsByH (ers : List Enriched) (h : ℤ) : List ℝ :=
  ((ers.map (fun er => er.h3)).dedup).map (fun c =>
    match predRowFor ers c with
    | some er => rawPredict er h
    | none => 0)

/-- `p95 = sorted_vals[max(0, int(0.95 * (len(vals) - 1)))]` (lines 246-248). -/
noncomputable def p95ByH (ers : List Enriched) (h : ℤ) : ℝ :=
  match predValsByH ers h with
  | [] => 0
  | vals =>
    let sorted_vals := vals.insertionSort (· ≤ ·)
    let p95_idx := (max 0 ⌊(0.95 : ℝ) * ((vals.length : ℝ) - 1)⌋).toNat
    sorted_vals.getD p95_idx 0

/-- `demand_denoms[h] = 0.5 * (max_pred_by_h[h] or 1.0) + 0.5 * (p95 or 1.0)`
when `vals` is nonempty, else `1.0` (lines 242-251). Python `x or 1.0`
substitutes `1.0` exactly when the float is zero. -/
noncomputable def demandDenomByH (ers : List Enriched) (h : ℤ) : ℝ :=
  match predValsByH ers h with
  | [] => 1.0
  | _ =>
    0.5 * (if maxPredByH ers h = 0 then 1.0 else maxPredByH ers h) +
      0.5 * (if p95ByH ers h = 0 then 1.0 else p95ByH ers h)

/-! ### Rounding (Python built-in `round`, half-to-even over exact reals) -/

/-- Python `round(x)`: round-half-to-even. -/
noncomputable def pyRoundInt (x : ℝ) : ℤ :=
  if Int.fract x = 1/2 then (if Even ⌊x⌋ then ⌊x⌋ else ⌊x⌋ + 1) else round x

/-- Python `round(x, nd)` for `nd ≥ 1`, over exact reals. -/
noncomputable def pyRound (x : ℝ) (nd : ℕ) : ℝ :=
  (pyRoundInt (x * 10 ^ nd) : ℝ) / 10 ^ nd

/-! ### Payload assembly (`generate_forecast`, lines 253-299) -/

/-- One `predictions[str(h)]` record. -/
structure PredEntry where
  predicted : ℝ
  lower : ℝ
  upper : ℝ
  demand_index : ℝ

/-- One element of `cells_payload`. -/
structure CellPayload where
  h3 : String
  current_count : ℤ
  unique_trips : ℤ
  suppressed : Bool
  is_hub : Bool
  is_corridor : Bool
  decay : ℝ
  predictions : List (ℤ × PredEntry)

/-- The forecast response dictionary. The empty-table branch (lines 132-139)
builds a dict without the `decay_base`/`quantiles`/`alpha_smoothing`/
`corridor_boost` keys, hence the `Option` fields. The constant
`explanations` block carries no data and is omitted. -/
structure Payload where
  generated_at : ℕ
  res : ℕ
  horizons_minutes : List ℤ
  forecast_version : String
  decay_base : Option ℝ
  quantiles : Option (ℝ × ℝ × ℝ)
  alpha_smoothing : Option ℝ
  corridor_boost : Option ℝ
  cells : List CellPayload

def Payload.junk : Payload :=
  ⟨0, 0, [], "", none, none, none, none, []⟩

/-- The per-cell, per-horizon output record (lines 256-264): all four numbers
are derived from the `preds_per_cell` dictionary row for the cell. -/
noncomputable def entryFor (ers : List Enriched) (q50 q95 : ℝ) (er : Enriched)
    (h : ℤ) : PredEntry :=
  let denom0 := demandDenomByH ers h
  let denom := if denom0 = 0 then 1.0 else denom0
  let predicted := rawPredict er h
  let lu := ciBoundsFor (ciScaleFor q50 q95 er.point_count) predicted
  { predicted := pyRound predicted 3
    lower := pyRound lu.1 3
    upper := pyRound lu.2 3
    demand_index := pyRound (predicted / denom) 4 }

/-- `generate_forecast` after validation and cache miss, given the
resolution's table (lines 130-299). -/
noncomputable def forecastPayload (s : Settings) (kRing : String → List String)
    (hubs corridors : List String) (res : ℕ) (table : List Row)
    (hs : List ℤ) (now : ℕ) : Payload :=
  match table with
  | [] =>
    { generated_at := now
      res := res
      horizons_minutes := hs
      forecast_version := "heuristic_v2"
      decay_base := none
      quantiles := none
      alpha_smoothing := none
      corridor_boost := none
      cells := [] }
  | _ :: _ =>
    let counts := table.map (fun r => r.point_count)
    let q50 := q50Of counts
    let q80 := q80Of counts
    let q95 := q95Of counts
    let ers := enrich s kRing hubs corridors table
    let cells := ers.map (fun row =>
      let dictRow := (predRowFor ers row.h3).getD row
      { h3 := row.h3
        current_count := row.point_count
        unique_trips := row.unique_trips
        suppressed := row.suppressed
        is_hub := row.is_hub
        is_corridor := row.is_corridor
        decay := pyRound row.decay 5
        predictions := hs.map (fun h => (h, entryFor ers q50 q95 dictRow h))
        : CellPayload })
    { generated_at := now
      res := res
      horizons_minutes := hs
      forecast_version := "heuristic_v2"
      decay_base := some (s.forecast_decay_per_hour : ℝ)
      quantiles := some (q50, q80, q95)
      alpha_smoothing := some alphaSmoothing
      corridor_boost := some corridorBoost
      cells := cells }

/-- `generate_forecast(res, horizons)` on a cache miss: validate the horizons,
then compute the payload from the resolution's table. (The cache and the
store lookup that sit between validation and computation are modelled by
`forecastCached` below.) -/
noncomputable def generate_forecast (s : Settings) (kRing : String → List String)
    (hubs corridors : List String) (res : ℕ) (table : List Row)
    (horizons : List ℤ) (now : ℕ) : Except ForecastError Payload :=
  match validateHorizons s horizons with
  | .error e => .error e
  | .ok hs => .ok (forecastPayload s kRing hubs corridors res table hs now)

/-- The cells of a forecast result (empty on error). -/
noncomputable def payloadCells (r : Except ForecastError Payload) : List CellPayload :=
  match r with
  | .ok p => p.cells
  | .error _ => []

/-! ### Forecast cache (`_cache_key`, `_forecast_cache`) -/

/-- The components of the `"|"`-joined cache-key string
`f"{res}|{horizons}|{minute_bucket}|{aggregates_repo.loaded_at}|{decay}"`.
The string is injective in these components, so the key is modelled as the
tuple itself. -/
structure CacheKey where
  res : ℕ
  horizons : List ℤ
  minute_bucket : ℕ
  loaded_at : Option ℕ
  decay_per_hour : ℚ
  deriving DecidableEq

/-- `_cache_key(res, horizons)` (the code re-sorts the already validated
horizon list). -/
def cache_key (s : Settings) (st : RepoState) (res : ℕ) (horizons : List ℤ)
    (minute : ℕ) : CacheKey :=
  ⟨res, horizons.insertionSort (· ≤ ·), minute, st.loaded_at, s.forecast_decay_per_hour⟩

/-- The full `generate_forecast` entry point with cache and store:
validate, build the key, return a cached payload on hit, otherwise load the
resolution's table, compute, and insert into the cache. Returns the payload
together with the updated cache. The empty-table branch returns early,
before the `_forecast_cache[key] = payload` write, so it is never cached. -/
noncomputable def forecastCached (s : Settings) (kRing : String → List String)
    (hubs corridors : List String) (st : RepoState)
    (cache : List (CacheKey × Payload)) (res : ℕ) (horizons : List ℤ)
    (now minute : ℕ) : Except ForecastError (Payload × List (CacheKey × Payload)) :=
  match validateHorizons s horizons with
  | .error e => .error e
  | .ok hs =>
    let key := cache_key s st res hs minute
    match cache.find? (fun kv => kv.1 = key) with
    | some kv => .ok (kv.2, cache)
    | none =>
      match get_resolution st res with
      | none => .error (.notLoaded res)
      | some table =>
        let p := forecastPayload s kRing hubs corridors res table hs now
        match table with
        | [] => .ok (p, cache)
        | _ :: _ => .ok (p, (key, p) :: cache)

/-! ### Concrete scenario data used when settling the claims -/

/-- An isolated-cells adjacency: `k_ring` returns no other cells. -/
def noNeighbors : String → List String := fun _ => []

/-- Reload scenario: the initial snapshot for resolution 8. -/
def c1TableA : List Row := [⟨"a", 1, 1⟩]

/-- Reload scenario: the snapshot that replaces `c1TableA`. -/
def c1TableB : List Row := [⟨"c", 100, 100⟩]

/-- Repository right after the initial load of `c1TableA` at tick 5. -/
def c1S1 : RepoState := set_resolution RepoState.empty 8 c1TableA 5

/-- Repository after the administrative reload at tick 6 replaces the
resolution-8 snapshot with `c1TableB`. -/
def c1S2 : RepoState := set_resolution c1S1 8 c1TableB 6

/-- The payload computed (and cached) by the pre-reload forecast call against
`c1TableA`, generated at tick 7. -/
noncomputable def c1StalePayload : Payload :=
  forecastPayload defaultSettings noNeighbors [] [] 8 c1TableA [60] 7

/-- The forecast cache after the pre-reload call. -/
noncomputable def c1Cache : List (CacheKey × Payload) :=
  [(cache_key defaultSettings c1S1 8 [60] 12, c1StalePayload)]

/-- Spec §8 scenario 3: a single isolated cell with
`point_count = unique_trip_count = 100`, no hub/corridor membership. -/
def c8Table : List Row := [⟨"c", 100, 100⟩]

/-- A single isolated low-density cell (`point_count = unique_trips = 1`). -/
def c3Table : List Row := [⟨"d", 1, 1⟩]

def junkEnriched : Enriched := ⟨"", 0, 0, 0, 0, false, false, false⟩

def junkCell : CellPayload := ⟨"", 0, 0, false, false, false, 0, []⟩

def junkPred : ℤ × PredEntry := (0, ⟨0, 0, 0, 0⟩)

/-- The enriched rows of the scenario-3 run (default settings, no neighbors,
no enrichment sets). -/
noncomputable def c8Ers : List Enriched :=
  enrich defaultSettings noNeighbors [] [] c8Table

/-- The enriched rows of the low-density single-cell run. -/
noncomputable def c3Ers : List Enriched :=
  enrich defaultSettings noNeighbors [] [] c3Table

/-- A single cell carrying a negative `point_count`, as the unvalidated
precomputed ingestion path can register from a CSV int column. -/
def c10Table : List Row := [⟨"n", -100, 1⟩]

/-- The enriched rows of the negative-count run. -/
noncomputable def c10Ers : List Enriched :=
  enrich defaultSettings noNeighbors [] [] c10Table

/-- Two isolated hub cells with opposite signed counts: the per-horizon max
and p95 predicted values cancel exactly in the blended denominator. -/
def signedPairTable : List Row := [⟨"p", 100, 1⟩, ⟨"q", -100, 1⟩]

/-- The enriched rows of the opposite-count hub-pair run. -/
noncomputable def signedPairErs : List Enriched :=
  enrich defaultSettings noNeighbors ["p", "q"] [] signedPairTable

/-- Emitted cells of the low-density single-cell run. -/
noncomputable def c3RunCells : List CellPayload :=
  payloadCells (generate_forecast defaultSettings noNeighbors [] [] 8 c3Table [60] 0)

/-- Emitted cells of the scenario-3 run. -/
noncomputable def c8RunCells : List CellPayload :=
  payloadCells (generate_forecast defaultSettings noNeighbors [] [] 8 c8Table [60] 0)

/-- Emitted cells of the negative-count run. -/
noncomputable def c10RunCells : List CellPayload :=
  payloadCells (generate_forecast defaultSettings noNeighbors [] [] 8 c10Table [60] 0)

/-! ## Helper lemmas -/

theorem accumulate_card_le (pts : List (String × String)) (acc : String → Bucket)
    (hacc : ∀ c, (acc c).ids.card ≤ (acc c).points) :
    ∀ c, ((pts.foldl accumStep acc) c).ids.card ≤ ((pts.foldl accumStep acc) c).points := by
  induction pts generalizing acc with
  | nil => exact hacc
  | cons p rest ih =>
    refine ih (accumStep acc p) (fun c => ?_)
    unfold accumStep
    by_cases hc : c = p.1
    · simp only [hc, if_pos rfl]
      exact le_trans (Finset.card_insert_le _ _) (Nat.succ_le_succ (hacc p.1))
    · simpa [hc] using hacc c

theorem find?_eq_none_of_all {α : Type} (p : α → Bool) (l : List α)
    (h : ∀ x ∈ l, p x = false) : l.find? p = none :=
  List.find?_eq_none.mpr (fun x hx => by simp [h x hx])

theorem forecastCached_hit (s : Settings) (kRing : String → List String)
    (hubs corridors : List String) (st : RepoState)
    (cache : List (CacheKey × Payload)) (res : ℕ) (horizons : List ℤ)
    (now minute : ℕ) (hs : List ℤ) (kv : CacheKey × Payload)
    (hv : validateHorizons s horizons = .ok hs)
    (hf : cache.find? (fun e => e.1 = cache_key s st res hs minute) = some kv) :
    forecastCached s kRing hubs corridors st cache res horizons now minute =
      .ok (kv.2, cache) := by
  unfold forecastCached
  rw [hv]
  dsimp only
  rw [hf]

theorem getD_mem_of_lt {α : Type} (l : List α) (i : ℕ) (d : α) (h : i < l.length) :
    l.getD i d ∈ l := by
  rw [List.getD_eq_getElem?_getD, List.getElem?_eq_getElem h]
  exact List.getElem_mem h

theorem pyRoundInt_le_add_half (x : ℝ) : (pyRoundInt x : ℝ) ≤ x + 1/2 := by
  unfold pyRoundInt
  split_ifs with hf he
  · have hfl : (⌊x⌋ : ℝ) = x - 1/2 := by
      have := Int.floor_add_fract x
      rw [hf] at this
      linarith
    linarith
  · have hfl : (⌊x⌋ : ℝ) = x - 1/2 := by
      have := Int.floor_add_fract x
      rw [hf] at this
      linarith
    push_cast
    linarith
  · exact round_le_add_half x

theorem sub_half_le_pyRoundInt (x : ℝ) : x - 1/2 ≤ (pyRoundInt x : ℝ) := by
  unfold pyRoundInt
  split_ifs with hf he
  · have hfl : (⌊x⌋ : ℝ) = x - 1/2 := by
      have := Int.floor_add_fract x
      rw [hf] at this
      linarith
    linarith
  · have hfl : (⌊x⌋ : ℝ) = x - 1/2 := by
      have := Int.floor_add_fract x
      rw [hf] at this
      linarith
    push_cast
    linarith
  · exact le_of_lt (sub_half_lt_round x)

theorem pyRoundInt_mono {x y : ℝ} (h : x ≤ y) : pyRoundInt x ≤ pyRoundInt y := by
  by_contra hlt
  push_neg at hlt
  have hba : (pyRoundInt y : ℝ) + 1 ≤ (pyRoundInt x : ℝ) := by
    exact_mod_cast Int.add_one_le_iff.mpr hlt
  have h1 := pyRoundInt_le_add_half x
  have h2 := sub_half_le_pyRoundInt y
  have hyx : y ≤ x := by linarith
  have hxy : x = y := le_antisymm h hyx
  subst hxy
  exact absurd hlt (lt_irrefl _)

theorem pyRoundInt_nonneg {x : ℝ} (h : 0 ≤ x) : 0 ≤ pyRoundInt x := by
  have h2 := sub_half_le_pyRoundInt x
  have : (-1 : ℝ) < (pyRoundInt x : ℝ) := by linarith
  have : (-1 : ℤ) < pyRoundInt x := by exact_mod_cast this
  omega

theorem pyRound_mono {x y : ℝ} (nd : ℕ) (h : x ≤ y) : pyRound x nd ≤ pyRound y nd := by
  unfold pyRound
  have hp : (0 : ℝ) < 10 ^ nd := by positivity
  have hxy : x * 10 ^ nd ≤ y * 10 ^ nd := mul_le_mul_of_nonneg_right h (le_of_lt hp)
  have hi : (pyRoundInt (x * 10 ^ nd) : ℝ) ≤ (pyRoundInt (y * 10 ^ nd) : ℝ) := by
    exact_mod_cast pyRoundInt_mono hxy
  gcongr

theorem pyRound_nonneg {x : ℝ} (nd : ℕ) (h : 0 ≤ x) : 0 ≤ pyRound x nd := by
  unfold pyRound
  have hp : (0 : ℝ) < 10 ^ nd := by positivity
  apply div_nonneg ?_ (le_of_lt hp)
  have : 0 ≤ x * 10 ^ nd := mul_nonneg h (le_of_lt hp)
  exact_mod_cast pyRoundInt_nonneg this

theorem lookupPC_nonneg {table : List Row}
    (htab : ∀ r ∈ table, 0 ≤ r.point_count) (c : String) : 0 ≤ lookupPC table c := by
  unfold lookupPC
  rcases hf : table.find? (fun r => r.h3 = c) with _ | r
  · simp [hf]
  · simp only [hf, Option.map_some', Option.getD_some]
    exact htab r (List.mem_of_find?_eq_some hf)

theorem smoothedOf_nonneg (kRing : String → List String) {table : List Row}
    (htab : ∀ r ∈ table, 0 ≤ r.point_count) (c : String) {pc : ℤ} (hpc : 0 ≤ pc) :
    0 ≤ smoothedOf kRing table c pc := by
  unfold smoothedOf
  have hpcr : (0 : ℝ) ≤ (pc : ℝ) := by exact_mod_cast hpc
  have hmean : ∀ ns : List String, (0 : ℝ) ≤
      (match ns with
        | [] => (pc : ℝ)
        | ns => ((ns.map (fun n => (lookupPC table n : ℝ))).sum) / ns.length) := by
    intro ns
    rcases ns with _ | ⟨n, rest⟩
    · exact hpcr
    · apply div_nonneg
      · apply List.sum_nonneg
        intro x hx
        obtain ⟨m, _, rfl⟩ := List.mem_map.mp hx
        exact_mod_cast lookupPC_nonneg htab m
      · positivity
  have h1 := hmean (neighborsOf kRing table c)
  have ha : (0 : ℝ) ≤ alphaSmoothing := by norm_num [alphaSmoothing]
  have ha2 : (0 : ℝ) ≤ 1 - alphaSmoothing := by norm_num [alphaSmoothing]
  exact add_nonneg (mul_nonneg ha hpcr) (mul_nonneg ha2 h1)

theorem enrich_smoothed_nonneg {s : Settings} {kRing : String → List String}
    {hubs corridors : List String} {table : List Row} {er : Enriched}
    (htab : ∀ r ∈ table, 0 ≤ r.point_count)
    (h : er ∈ enrich s kRing hubs corridors table) : 0 ≤ er.smoothed := by
  unfold enrich at h
  obtain ⟨r, hr, rfl⟩ := List.mem_map.mp h
  exact smoothedOf_nonneg kRing htab r.h3 (htab r hr)

theorem rawPredict_nonneg {er : Enriched} (hsm : 0 ≤ er.smoothed) (h : ℤ) :
    0 ≤ rawPredict er h := by
  unfold rawPredict
  dsimp only
  have hbase : 0 ≤ er.smoothed * Real.exp (-(er.decay * ((h : ℝ) / 60))) :=
    mul_nonneg hsm (le_of_lt (Real.exp_pos _))
  split_ifs with hc
  · apply mul_nonneg hbase
    have := Real.exp_pos (-((h : ℝ) / 60 / corridorTauHours))
    have hb : (0 : ℝ) ≤ corridorBoost := by norm_num [corridorBoost]
    nlinarith
  · exact hbase

theorem poisson_ci_lower_le_upper (m : ℝ) : (poisson_ci m).1 ≤ (poisson_ci m).2 := by
  unfold poisson_ci
  split_ifs with hm
  · exact le_refl 0
  · push_neg at hm
    have hs := Real.sqrt_nonneg m
    apply max_le
    · nlinarith
    · nlinarith

theorem ciScaleFor_nonneg (q50 q95 : ℝ) (pc : ℤ) : 0 ≤ ciScaleFor q50 q95 pc := by
  unfold ciScaleFor
  split_ifs <;> norm_num

theorem halfWidthFor_nonneg {scale : ℝ} (hs : 0 ≤ scale) (mid : ℝ) :
    0 ≤ halfWidthFor scale mid := by
  unfold halfWidthFor
  have := poisson_ci_lower_le_upper mid
  apply mul_nonneg ?_ hs
  linarith

theorem ciBoundsFor_bounds {scale mid : ℝ} (hs : 0 ≤ scale) (hm : 0 ≤ mid) :
    0 ≤ (ciBoundsFor scale mid).1 ∧ (ciBoundsFor scale mid).1 ≤ mid ∧
      mid ≤ (ciBoundsFor scale mid).2 := by
  have hw := halfWidthFor_nonneg hs mid
  unfold ciBoundsFor
  refine ⟨le_max_left _ _, ?_, ?_⟩
  · exact max_le hm (by linarith)
  · simpa using hw

theorem ciBoundsFor_weak_bounds {scale : ℝ} (hs : 0 ≤ scale) (mid : ℝ) :
    0 ≤ (ciBoundsFor scale mid).1 ∧ mid ≤ (ciBoundsFor scale mid).2 := by
  have hw := halfWidthFor_nonneg hs mid
  unfold ciBoundsFor
  exact ⟨le_max_left _ _, by simpa using hw⟩

theorem decay_for_no_hub_low (s : Settings) (q50 q80 q95 : ℝ) (pc : ℤ) (c : String)
    (h95 : ¬ ((pc : ℝ) ≥ q95)) (h80 : ¬ ((pc : ℝ) ≥ q80)) (h50 : ¬ ((pc : ℝ) ≥ q50)) :
    decay_for s q50 q80 q95 [] pc c = (s.forecast_decay_per_hour : ℝ) * 1.3 := by
  unfold decay_for
  dsimp only
  rw [if_neg h95, if_neg h80, if_neg h50]
  rfl

theorem decay_for_hub_mid (s : Settings) (q50 q80 q95 : ℝ) (hubs : List String)
    (pc : ℤ) (c : String) (hc : hubs.contains c = true)
    (h95 : ¬ ((pc : ℝ) ≥ q95)) (h80 : ¬ ((pc : ℝ) ≥ q80)) (h50 : (pc : ℝ) ≥ q50) :
    decay_for s q50 q80 q95 hubs pc c =
      min ((s.forecast_decay_per_hour : ℝ) * 1.0)
        ((s.forecast_decay_per_hour : ℝ) * 0.5) := by
  unfold decay_for
  dsimp only
  rw [if_neg h95, if_neg h80, if_pos h50, if_pos hc]

theorem decay_for_hub_low (s : Settings) (q50 q80 q95 : ℝ) (hubs : List String)
    (pc : ℤ) (c : String) (hc : hubs.contains c = true)
    (h95 : ¬ ((pc : ℝ) ≥ q95)) (h80 : ¬ ((pc : ℝ) ≥ q80)) (h50 : ¬ ((pc : ℝ) ≥ q50)) :
    decay_for s q50 q80 q95 hubs pc c =
      min ((s.forecast_decay_per_hour : ℝ) * 1.3)
        ((s.forecast_decay_per_hour : ℝ) * 0.5) := by
  unfold decay_for
  dsimp only
  rw [if_neg h95, if_neg h80, if_neg h50, if_pos hc]

theorem smoothedOf_noNeighbors (table : List Row) (c : String) (pc : ℤ) :
    smoothedOf noNeighbors table c pc = (pc : ℝ) := by
  unfold smoothedOf neighborsOf noNeighbors
  show alphaSmoothing * pc + (1 - alphaSmoothing) * (pc : ℝ) = pc
  ring

theorem decay_for_no_hub_top (s : Settings) (q50 q80 q95 : ℝ) (pc : ℤ) (c : String)
    (h : q95 ≤ (pc : ℝ)) :
    decay_for s q50 q80 q95 [] pc c = (s.forecast_decay_per_hour : ℝ) * 0.4 := by
  unfold decay_for
  dsimp only
  rw [if_pos h]
  rfl

theorem maxPredByH_nonneg (ers : List Enriched) (h : ℤ) : 0 ≤ maxPredByH ers h := by
  unfold maxPredByH
  suffices hgen : ∀ (l : List Enriched) (init : ℝ), 0 ≤ init →
      0 ≤ l.foldl (fun acc er =>
        let p := rawPredict er h
        if p > acc then p else acc) init from hgen ers 0 le_rfl
  intro l
  induction l with
  | nil =>
    intro init h0
    simpa using h0
  | cons e rest ih =>
    intro init h0
    dsimp only [List.foldl]
    apply ih
    dsimp only
    split_ifs with hgt
    · linarith
    · exact h0

theorem predValsByH_enrich_nonneg (s : Settings) (kRing : String → List String)
    (hubs corridors : List String) (table : List Row)
    (htab : ∀ r ∈ table, 0 ≤ r.point_count) (h : ℤ) :
    ∀ x ∈ predValsByH (enrich s kRing hubs corridors table) h, 0 ≤ x := by
  intro x hx
  unfold predValsByH at hx
  obtain ⟨c, _, rfl⟩ := List.mem_map.mp hx
  rcases hpr : predRowFor (enrich s kRing hubs corridors table) c with _ | er
  · exact le_refl 0
  · have her : er ∈ enrich s kRing hubs corridors table :=
      List.mem_reverse.mp (List.mem_of_find?_eq_some hpr)
    exact rawPredict_nonneg (enrich_smoothed_nonneg htab her) h

theorem p95ByH_nonneg (ers : List Enriched) (h : ℤ)
    (hvals : ∀ x ∈ predValsByH ers h, 0 ≤ x) : 0 ≤ p95ByH ers h := by
  unfold p95ByH
  rcases hv : predValsByH ers h with _ | ⟨v, vs⟩
  · exact le_refl 0
  · dsimp only
    rcases lt_or_ge ((max 0 ⌊(0.95 : ℝ) * ((((v :: vs).length : ℕ) : ℝ) - 1)⌋).toNat)
        (((v :: vs).insertionSort (· ≤ ·)).length) with hlt | hge
    · have hmem := getD_mem_of_lt _ _ (0 : ℝ) hlt
      have : ((v :: vs).insertionSort (· ≤ ·)).getD
          ((max 0 ⌊(0.95 : ℝ) * ((((v :: vs).length : ℕ) : ℝ) - 1)⌋).toNat) 0 ∈ v :: vs :=
        (List.mem_insertionSort _).mp hmem
      refine hvals _ ?_
      rw [hv]
      exact this
    · rw [List.getD_eq_default _ _ hge]

theorem demandDenomByH_pos (ers : List Enriched) (h : ℤ)
    (hmax : 0 ≤ maxPredByH ers h) (hp95 : 0 ≤ p95ByH ers h) :
    0 < demandDenomByH ers h := by
  unfold demandDenomByH
  rcases hv : predValsByH ers h with _ | ⟨v, vs⟩
  · norm_num
  · have hA : 0 < (if maxPredByH ers h = 0 then (1 : ℝ) else maxPredByH ers h) := by
      split_ifs with h1
      · norm_num
      · exact lt_of_le_of_ne hmax (Ne.symm h1)
    have hB : 0 < (if p95ByH ers h = 0 then (1 : ℝ) else p95ByH ers h) := by
      split_ifs with h1
      · norm_num
      · exact lt_of_le_of_ne hp95 (Ne.symm h1)
    dsimp only
    linarith

theorem predValsByH_ne_nil (ers : List Enriched) (h : ℤ) (hne : ers ≠ []) :
    predValsByH ers h ≠ [] := by
  unfold predValsByH
  simp [List.dedup_eq_nil, hne]

theorem demandDenomByH_eq (ers : List Enriched) (h : ℤ)
    (hne : predValsByH ers h ≠ []) :
    demandDenomByH ers h =
      0.5 * (if maxPredByH ers h = 0 then 1 else maxPredByH ers h) +
        0.5 * (if p95ByH ers h = 0 then 1 else p95ByH ers h) := by
  unfold demandDenomByH
  rcases hv : predValsByH ers h with _ | ⟨v, vs⟩
  · exact absurd hv hne
  · dsimp only
    norm_num

/-! ## Claims -/

/-- C1. The spec (§3, §8 scenario 4) requires the snapshot-identity component
of the forecast cache key to change on reload, so that a forecast in the
same UTC minute after a reload is recomputed. The code slips:
`set_resolution` only assigns `loaded_at` when it is `None`, so a reload
leaves it unchanged; the cache key of a post-reload call equals the
pre-reload key and the stale cached payload is returned. Concretely: load
`c1TableA` (one cell `"a"`) at tick 5, forecast in minute bucket 12 (the
payload, whose only cell is `"a"`, is cached), reload to `c1TableB` (one
cell `"c"`), forecast again in the same minute bucket: the second call
returns the first call's payload, whose cell list still shows `"a"`. -/
theorem c1_reload_same_minute_serves_stale_cache :
    c1S2.loaded_at = c1S1.loaded_at ∧
    cache_key defaultSettings c1S2 8 [60] 12 = cache_key defaultSettings c1S1 8 [60] 12 ∧
    forecastCached defaultSettings noNeighbors [] [] c1S1 [] 8 [60] 7 12 =
      .ok (c1StalePayload, c1Cache) ∧
    forecastCached defaultSettings noNeighbors [] [] c1S2 c1Cache 8 [60] 8 12 =
      .ok (c1StalePayload, c1Cache) ∧
    get_resolution c1S2 8 = some c1TableB ∧
    c1StalePayload.cells.map (fun cl => cl.h3) = ["a"] ∧
    (forecastPayload defaultSettings noNeighbors [] [] 8 c1TableB
      [60] 8).cells.map (fun cl => cl.h3) = ["c"] := by
  refine ⟨rfl, rfl, rfl, ?_, rfl, rfl, rfl⟩
  exact forecastCached_hit defaultSettings noNeighbors [] [] c1S2 c1Cache 8 [60] 8 12
    (dedupSortInt [60]) (cache_key defaultSettings c1S1 8 [60] 12, c1StalePayload)
    rfl (List.find?_cons_of_pos _ (decide_eq_true rfl))

/-- C2 counterexample. The claim states that an empty horizon list fails with
InvalidHorizon; in `generate_forecast` the validation loop over an empty
deduplicated list raises nothing and validation succeeds with the empty
list. (The HTTP route rejects an empty list separately, with a different
"No horizons provided" error.) -/
theorem c2_empty_horizons_pass_validation :
    validateHorizons defaultSettings [] = .ok [] := rfl

/-- C2, amended: the horizon list is deduplicated and sorted ascending before
use, and `generate_forecast` fails with InvalidHorizon iff the deduplicated
list contains a horizon `h` with `h < 1` or `h >` the configured maximum;
an empty list passes validation. -/
theorem c2_horizon_validation :
    ∀ (s : Settings) (horizons : List ℤ),
      ((∃ e, validateHorizons s horizons = .error e) ↔
        ∃ h ∈ dedupSortInt horizons, h < 1 ∨ s.forecast_max_minutes < h) ∧
      (∀ out, validateHorizons s horizons = .ok out →
        out = dedupSortInt horizons ∧ out.Sorted (· ≤ ·) ∧ out.Nodup ∧
          ∀ x, x ∈ out ↔ x ∈ horizons) := by
  intro s horizons
  rcases hf : (dedupSortInt horizons).find?
      (fun h => h < 1 || s.forecast_max_minutes < h) with _ | h
  · have hok : validateHorizons s horizons = .ok (dedupSortInt horizons) := by
      unfold validateHorizons
      rw [hf]
    constructor
    · constructor
      · rintro ⟨e, he⟩
        rw [hok] at he
        exact absurd he (by simp)
      · rintro ⟨h, hmem, hbad⟩
        have hfalse := List.find?_eq_none.mp hf h hmem
        simp only [Bool.or_eq_true, decide_eq_true_eq, not_or] at hfalse
        rcases hbad with hb | hb
        · exact absurd hb hfalse.1
        · exact absurd hb hfalse.2
    · intro out hout
      rw [hok] at hout
      have hout' : out = dedupSortInt horizons := by
        simpa using hout.symm
      subst hout'
      refine ⟨rfl, ?_, ?_, ?_⟩
      · exact List.sorted_insertionSort _ _
      · exact ((List.perm_insertionSort _ _).nodup_iff).mpr (List.nodup_dedup _)
      · intro x
        unfold dedupSortInt
        rw [List.mem_insertionSort, List.mem_dedup]
  · have herr : validateHorizons s horizons = .error (.invalidHorizon h) := by
      unfold validateHorizons
      rw [hf]
    have hmem := List.mem_of_find?_eq_some hf
    have hbad := List.find?_some hf
    simp only [Bool.or_eq_true, decide_eq_true_eq] at hbad
    constructor
    · exact ⟨fun _ => ⟨h, hmem, hbad⟩, fun _ => ⟨_, herr⟩⟩
    · intro out hout
      rw [herr] at hout
      exact absurd hout (by simp)

/-- C2 witness: the validated horizon `0` is reported invalid. -/
theorem c2_horizon_validation_witness :
    ∃ e, validateHorizons defaultSettings [0, 5] = .error e :=
  (c2_horizon_validation defaultSettings [0, 5]).1.mpr
    ⟨0, by decide, Or.inl (by decide)⟩

/-- C5 counterexample. The claim states ingestion requires only
{randomized_id, lat, lng} and that absent telemetry columns do not cause
failure; the loader's `REQUIRED_COLUMNS` also lists `alt`, `spd`, `azm`, so a
source with exactly the three id/coordinate columns is rejected with the
telemetry columns as missing. -/
theorem c5_telemetry_columns_are_required :
    validate_columns ["randomized_id", "lat", "lng"] = .error ["alt", "spd", "azm"] := rfl

/-- C5, amended: `_validate_columns` fails with a SchemaError iff any of the
six columns {randomized_id, lat, lng, alt, spd, azm} is absent, and the
error enumerates exactly the absent ones in `REQUIRED_COLUMNS` order; rows
merely missing one of the three used values are dropped silently. -/
theorem c5_schema_validation :
    ∀ cols : List String,
      ((∃ m, validate_columns cols = .error m) ↔ ∃ c ∈ REQUIRED_COLUMNS, c ∉ cols) ∧
      (∀ m, validate_columns cols = .error m →
        m = REQUIRED_COLUMNS.filter (fun c => ¬ c ∈ cols)) ∧
      (∀ (rows : List RawRow) (r : RawRow), r ∈ dropnaRequired rows ↔
        r ∈ rows ∧ (r.randomized_id.isSome ∧ r.lat.isSome ∧ r.lng.isSome)) := by
  intro cols
  refine ⟨?_, ?_, ?_⟩
  · constructor
    · rintro ⟨m, hm⟩
      unfold validate_columns at hm
      rcases hfil : REQUIRED_COLUMNS.filter (fun c => ¬ c ∈ cols) with _ | ⟨c, rest⟩
      · rw [hfil] at hm
        exact absurd hm (by simp)
      · have hc : c ∈ REQUIRED_COLUMNS.filter (fun c => ¬ c ∈ cols) := by
          rw [hfil]; exact List.mem_cons_self _ _
        have := List.mem_filter.mp hc
        exact ⟨c, this.1, by simpa using this.2⟩
    · rintro ⟨c, hmem, habs⟩
      unfold validate_columns
      rcases hfil : REQUIRED_COLUMNS.filter (fun c => ¬ c ∈ cols) with _ | _
      · have : c ∈ REQUIRED_COLUMNS.filter (fun c => ¬ c ∈ cols) :=
          List.mem_filter.mpr ⟨hmem, by simpa using habs⟩
        rw [hfil] at this
        exact absurd this (List.not_mem_nil _)
      · exact ⟨_, rfl⟩
  · intro m hm
    unfold validate_columns at hm
    rcases hfil : REQUIRED_COLUMNS.filter (fun c => ¬ c ∈ cols) with _ | _ <;>
      rw [hfil] at hm
    · exact absurd hm (by simp)
    · simpa using hm.symm
  · intro rows r
    unfold dropnaRequired
    rw [List.mem_filter]
    simp [and_assoc]

/-- C5 witness: with no columns at all, validation fails (the column
`randomized_id` is required and absent). -/
theorem c5_schema_validation_witness :
    ∃ m, validate_columns [] = .error m :=
  (c5_schema_validation []).1.mpr
    ⟨"randomized_id", List.mem_cons_self _ _, List.not_mem_nil _⟩

/-- C6 counterexample. The claim states the empty-table result still carries
`decay_base`, `quantiles`, `alpha`, `corridor_boost`; the empty-table branch
of `generate_forecast` builds its response without those keys. -/
theorem c6_empty_table_metadata_absent :
    (generate_forecast defaultSettings noNeighbors [] [] 8 [] [60] 3).map
      (fun p => (p.cells, p.decay_base, p.quantiles, p.alpha_smoothing, p.corridor_boost)) =
      .ok ([], none, none, none, none) := rfl

/-- C6, amended: an empty resolution table yields a successful result (no
error) with an empty cell list; `generated_at`, `res`, the deduplicated
sorted horizon list and the version tag are populated, but the response
carries no `decay_base`, `quantiles`, `alpha_smoothing` or `corridor_boost`
keys. -/
theorem c6_empty_table_success :
    ∀ (s : Settings) (kRing : String → List String) (hubs corridors : List String)
      (res : ℕ) (horizons : List ℤ) (now : ℕ),
      (∀ h ∈ dedupSortInt horizons, 1 ≤ h ∧ h ≤ s.forecast_max_minutes) →
      generate_forecast s kRing hubs corridors res [] horizons now =
        .ok { generated_at := now, res := res, horizons_minutes := dedupSortInt horizons,
              forecast_version := "heuristic_v2", decay_base := none, quantiles := none,
              alpha_smoothing := none, corridor_boost := none, cells := [] } := by
  intro s kRing hubs corridors res horizons now hok
  unfold generate_forecast validateHorizons
  have hnone : (dedupSortInt horizons).find?
      (fun h => h < 1 || s.forecast_max_minutes < h) = none := by
    refine find?_eq_none_of_all _ _ (fun x hx => ?_)
    obtain ⟨h1, h2⟩ := hok x hx
    simp only [Bool.or_eq_false_iff, decide_eq_false_iff_not, not_lt]
    exact ⟨h1, h2⟩
  rw [hnone]
  rfl

/-- C6 witness: a concrete empty-table call succeeds with the expected
response. -/
theorem c6_empty_table_success_witness :
    generate_forecast defaultSettings noNeighbors [] [] 8 [] [60] 3 =
      .ok { generated_at := 3, res := 8, horizons_minutes := [60],
            forecast_version := "heuristic_v2", decay_base := none, quantiles := none,
            alpha_smoothing := none, corridor_boost := none, cells := [] } :=
  c6_empty_table_success defaultSettings noNeighbors [] [] 8 [60] 3 (by decide)

/-- C3 counterexample. The claim reads the denominator as
`0.5·max(max_pred, 1.0) + 0.5·max(p95, 1.0)`; the code's Python `or`
substitutes 1.0 only when the value is exactly zero. For a single cell with
`point_count = 1` the per-horizon max and p95 both equal `e^(−0.06)`,
strictly between 0 and 1, so the code's denominator is `e^(−0.06)` while the
claimed formula gives 1. -/
theorem c3_denominator_uses_or_not_max :
    demandDenomByH c3Ers 60 ≠
      0.5 * max (maxPredByH c3Ers 60) 1 + 0.5 * max (p95ByH c3Ers 60) 1 := by
  have hsm : (c3Ers.getD 0 junkEnriched).smoothed = 1 := by
    show smoothedOf noNeighbors c3Table "d" 1 = 1
    rw [smoothedOf_noNeighbors]
    norm_num
  have h95 : q95Of (c3Table.map (fun r => r.point_count)) = 0 := rfl
  have hdecshape : (c3Ers.getD 0 junkEnriched).decay =
      decay_for defaultSettings (q50Of (c3Table.map (fun r => r.point_count)))
        (q80Of (c3Table.map (fun r => r.point_count)))
        (q95Of (c3Table.map (fun r => r.point_count))) [] 1 "d" := rfl
  have hdec : (c3Ers.getD 0 junkEnriched).decay = 0.06 := by
    rw [hdecshape,
      decay_for_no_hub_top defaultSettings _ _ _ 1 "d" (by rw [h95]; norm_num)]
    show ((15/100 : ℚ) : ℝ) * 0.4 = 0.06
    push_cast
    norm_num
  have hcorr : (c3Ers.getD 0 junkEnriched).is_corridor = false := rfl
  have hraw : rawPredict (c3Ers.getD 0 junkEnriched) 60 = Real.exp (-(0.06 : ℝ)) := by
    unfold rawPredict
    dsimp only
    rw [if_neg ?hneg3]
    case hneg3 =>
      rw [hcorr]
      simp
    have harg : -((c3Ers.getD 0 junkEnriched).decay * (((60 : ℤ) : ℝ) / 60)) =
        -(0.06 : ℝ) := by
      rw [hdec]
      norm_num
    rw [hsm, harg, one_mul]
  have hpos : 0 < rawPredict (c3Ers.getD 0 junkEnriched) 60 := by
    rw [hraw]
    exact Real.exp_pos _
  have hlt1 : rawPredict (c3Ers.getD 0 junkEnriched) 60 < 1 := by
    rw [hraw]
    exact Real.exp_lt_one_iff.mpr (by norm_num)
  have hmax : maxPredByH c3Ers 60 = rawPredict (c3Ers.getD 0 junkEnriched) 60 := by
    show (if rawPredict (c3Ers.getD 0 junkEnriched) 60 > 0
        then rawPredict (c3Ers.getD 0 junkEnriched) 60 else 0) =
      rawPredict (c3Ers.getD 0 junkEnriched) 60
    rw [if_pos hpos]
  have hvals : predValsByH c3Ers 60 = [rawPredict (c3Ers.getD 0 junkEnriched) 60] := rfl
  have hp95 : p95ByH c3Ers 60 = rawPredict (c3Ers.getD 0 junkEnriched) 60 := by
    unfold p95ByH
    rw [hvals]
    dsimp only
    have hidx : (max 0 ⌊(0.95 : ℝ) *
        ((([rawPredict (c3Ers.getD 0 junkEnriched) 60].length : ℕ) : ℝ) - 1)⌋).toNat = 0 := by
      norm_num
    rw [hidx]
    rfl
  rw [demandDenomByH_eq c3Ers 60 (by rw [hvals]; simp), hmax, hp95,
    if_neg (ne_of_gt hpos), max_eq_right (le_of_lt hlt1)]
  intro hEq
  have h1 : rawPredict (c3Ers.getD 0 junkEnriched) 60 = 1 := by linarith
  exact absurd h1 (ne_of_lt hlt1)

/-- C3, amended: for every emitted prediction entry, `demand_index` equals the
raw predicted value divided by the blended denominator
`0.5·(max_pred or 1.0) + 0.5·(p95 or 1.0)` — where `or` replaces only an
exactly-zero value by 1.0 (Python float truthiness), not a max with 1.0 —
itself guarded by the code's final `demand_denoms[h] or 1.0` (the whole blend
is replaced by 1.0 when it is exactly zero), rounded to 4 decimals;
`predicted`, `lower` and `upper` are the raw value and its tier-scaled CI
bounds rounded to 3 decimals. When every `point_count` in the table is
nonnegative the blend is provably positive, so the outer guard is inert and
the denominator is exactly the `or`-blend; with signed counts the guard can
fire (`signed_pair_zero_denominator` below). -/
theorem c3_demand_index :
    ∀ (s : Settings) (kRing : String → List String) (hubs corridors : List String)
      (res : ℕ) (table : List Row) (horizons : List ℤ) (now : ℕ),
      (∀ c ∈ payloadCells (generate_forecast s kRing hubs corridors res table horizons now),
        ∀ he ∈ c.predictions,
          ∃ er ∈ enrich s kRing hubs corridors table,
            er.h3 = c.h3 ∧
            he.2.demand_index =
              pyRound (rawPredict er he.1 /
                (if 0.5 * (if maxPredByH (enrich s kRing hubs corridors table) he.1 = 0 then 1
                      else maxPredByH (enrich s kRing hubs corridors table) he.1) +
                    0.5 * (if p95ByH (enrich s kRing hubs corridors table) he.1 = 0 then 1
                      else p95ByH (enrich s kRing hubs corridors table) he.1) = 0 then 1
                 else 0.5 * (if maxPredByH (enrich s kRing hubs corridors table) he.1 = 0 then 1
                      else maxPredByH (enrich s kRing hubs corridors table) he.1) +
                    0.5 * (if p95ByH (enrich s kRing hubs corridors table) he.1 = 0 then 1
                      else p95ByH (enrich s kRing hubs corridors table) he.1))) 4 ∧
            he.2.predicted = pyRound (rawPredict er he.1) 3 ∧
            he.2.lower = pyRound (ciBoundsFor (ciScaleFor
                (q50Of (table.map (fun r => r.point_count)))
                (q95Of (table.map (fun r => r.point_count))) er.point_count)
                (rawPredict er he.1)).1 3 ∧
            he.2.upper = pyRound (ciBoundsFor (ciScaleFor
                (q50Of (table.map (fun r => r.point_count)))
                (q95Of (table.map (fun r => r.point_count))) er.point_count)
                (rawPredict er he.1)).2 3) ∧
      ((∀ r ∈ table, 0 ≤ r.point_count) → table ≠ [] → ∀ h : ℤ,
        0 < 0.5 * (if maxPredByH (enrich s kRing hubs corridors table) h = 0 then 1
              else maxPredByH (enrich s kRing hubs corridors table) h) +
            0.5 * (if p95ByH (enrich s kRing hubs corridors table) h = 0 then 1
              else p95ByH (enrich s kRing hubs corridors table) h)) := by
  intro s kRing hubs corridors res table horizons now
  constructor
  · intro c hc he hhe
    rcases hv : validateHorizons s horizons with e | hs
    · rw [generate_forecast, hv] at hc
      exact absurd hc (List.not_mem_nil c)
    rw [generate_forecast, hv] at hc
    rcases table with _ | ⟨r0, rest⟩
    · exact absurd hc (List.not_mem_nil c)
    unfold payloadCells forecastPayload at hc
    dsimp only at hc
    obtain ⟨row, hrow, rfl⟩ := List.mem_map.mp hc
    dsimp only at hhe
    obtain ⟨h, hh, rfl⟩ := List.mem_map.mp hhe
    have hersne : enrich s kRing hubs corridors (r0 :: rest) ≠ [] := by
      unfold enrich
      simp
    have hvne := predValsByH_ne_nil (enrich s kRing hubs corridors (r0 :: rest)) h hersne
    have hden := demandDenomByH_eq (enrich s kRing hubs corridors (r0 :: rest)) h hvne
    have h10 : (1.0 : ℝ) = 1 := by norm_num
    rcases hpr : predRowFor (enrich s kRing hubs corridors (r0 :: rest)) row.h3 with _ | er
    · refine ⟨row, hrow, rfl, ?_, rfl, rfl, rfl⟩
      unfold entryFor
      dsimp only
      rw [hden, h10]
      rfl
    · have hpr2 : (enrich s kRing hubs corridors (r0 :: rest)).reverse.find?
          (fun e => e.h3 = row.h3) = some er := hpr
      have her : er ∈ enrich s kRing hubs corridors (r0 :: rest) :=
        List.mem_reverse.mp (List.mem_of_find?_eq_some hpr2)
      have hsome := List.find?_some hpr2
      have hh3 : er.h3 = row.h3 := of_decide_eq_true hsome
      refine ⟨er, her, hh3, ?_, rfl, rfl, rfl⟩
      unfold entryFor
      dsimp only
      rw [hden, h10]
      rfl
  · intro htab hne h
    have hersne : enrich s kRing hubs corridors table ≠ [] := by
      unfold enrich
      intro hmap
      exact hne (by simpa using hmap)
    have hvne := predValsByH_ne_nil (enrich s kRing hubs corridors table) h hersne
    have hpos := demandDenomByH_pos (enrich s kRing hubs corridors table) h
      (maxPredByH_nonneg (enrich s kRing hubs corridors table) h)
      (p95ByH_nonneg (enrich s kRing hubs corridors table) h
        (predValsByH_enrich_nonneg s kRing hubs corridors table htab h))
    rw [← demandDenomByH_eq (enrich s kRing hubs corridors table) h hvne]
    exact hpos

/-- C3 witness: a concrete single-cell run, first cell, first horizon, and
the positivity of the blend for its (nonnegative) table. -/
theorem c3_demand_index_witness :
    (∃ er ∈ c3Ers,
      er.h3 = (c3RunCells.getD 0 junkCell).h3 ∧
      ((c3RunCells.getD 0 junkCell).predictions.getD 0 junkPred).2.demand_index =
        pyRound (rawPredict er ((c3RunCells.getD 0 junkCell).predictions.getD 0 junkPred).1 /
          (if 0.5 * (if maxPredByH c3Ers
                  ((c3RunCells.getD 0 junkCell).predictions.getD 0 junkPred).1 = 0 then 1
                else maxPredByH c3Ers
                  ((c3RunCells.getD 0 junkCell).predictions.getD 0 junkPred).1) +
              0.5 * (if p95ByH c3Ers
                  ((c3RunCells.getD 0 junkCell).predictions.getD 0 junkPred).1 = 0 then 1
                else p95ByH c3Ers
                  ((c3RunCells.getD 0 junkCell).predictions.getD 0 junkPred).1) = 0 then 1
           else 0.5 * (if maxPredByH c3Ers
                  ((c3RunCells.getD 0 junkCell).predictions.getD 0 junkPred).1 = 0 then 1
                else maxPredByH c3Ers
                  ((c3RunCells.getD 0 junkCell).predictions.getD 0 junkPred).1) +
              0.5 * (if p95ByH c3Ers
                  ((c3RunCells.getD 0 junkCell).predictions.getD 0 junkPred).1 = 0 then 1
                else p95ByH c3Ers
                  ((c3RunCells.getD 0 junkCell).predictions.getD 0 junkPred).1))) 4 ∧
      ((c3RunCells.getD 0 junkCell).predictions.getD 0 junkPred).2.predicted =
        pyRound (rawPredict er
          ((c3RunCells.getD 0 junkCell).predictions.getD 0 junkPred).1) 3 ∧
      ((c3RunCells.getD 0 junkCell).predictions.getD 0 junkPred).2.lower =
        pyRound (ciBoundsFor (ciScaleFor
            (q50Of (c3Table.map (fun r => r.point_count)))
            (q95Of (c3Table.map (fun r => r.point_count))) er.point_count)
          (rawPredict er
            ((c3RunCells.getD 0 junkCell).predictions.getD 0 junkPred).1)).1 3 ∧
      ((c3RunCells.getD 0 junkCell).predictions.getD 0 junkPred).2.upper =
        pyRound (ciBoundsFor (ciScaleFor
            (q50Of (c3Table.map (fun r => r.point_count)))
            (q95Of (c3Table.map (fun r => r.point_count))) er.point_count)
          (rawPredict er
            ((c3RunCells.getD 0 junkCell).predictions.getD 0 junkPred).1)).2 3) ∧
    (0 < 0.5 * (if maxPredByH c3Ers 60 = 0 then 1 else maxPredByH c3Ers 60) +
        0.5 * (if p95ByH c3Ers 60 = 0 then 1 else p95ByH c3Ers 60)) :=
  ⟨(c3_demand_index defaultSettings noNeighbors [] [] 8 c3Table [60] 0).1
      _ (getD_mem_of_lt _ 0 junkCell (by decide))
      _ (getD_mem_of_lt _ 0 junkPred (by decide)),
    (c3_demand_index defaultSettings noNeighbors [] [] 8 c3Table [60] 0).2
      (by decide) (by decide) 60⟩

/-- With signed counts the blended denominator can be exactly zero while the
run is non-degenerate: two isolated hub cells with counts 100 and -100 get
the same hub-clamped decay, so their predictions are exact opposites; the
per-horizon max is the positive one and the two-cell p95 index picks the
negative one, and the blend `0.5·max + 0.5·p95` cancels to 0 (whereupon the
code's final `or 1.0` guard fires). This is why the positivity of the blend
in the demand-index theorem needs nonnegative counts. -/
theorem signed_pair_zero_denominator :
    maxPredByH signedPairErs 60 ≠ 0 ∧
    demandDenomByH signedPairErs 60 = 0 ∧
    0.5 * (if maxPredByH signedPairErs 60 = 0 then 1 else maxPredByH signedPairErs 60) +
      0.5 * (if p95ByH signedPairErs 60 = 0 then 1 else p95ByH signedPairErs 60) = 0 := by
  have hq50 : q50Of (signedPairTable.map (fun r => r.point_count)) = 0 := by
    show ((((-100 : ℤ) : ℝ)) * ((100 : ℝ) - ((50 : ℤ) : ℝ)) +
        (((100 : ℤ) : ℝ)) * ((50 : ℤ) : ℝ)) / 100 = 0
    push_cast
    norm_num
  have hq80 : q80Of (signedPairTable.map (fun r => r.point_count)) = 180 := by
    show ((((-100 : ℤ) : ℝ)) * ((100 : ℝ) - ((140 : ℤ) : ℝ)) +
        (((100 : ℤ) : ℝ)) * ((140 : ℤ) : ℝ)) / 100 = 180
    push_cast
    norm_num
  have hq95 : q95Of (signedPairTable.map (fun r => r.point_count)) = 270 := by
    show ((((-100 : ℤ) : ℝ)) * ((100 : ℝ) - ((185 : ℤ) : ℝ)) +
        (((100 : ℤ) : ℝ)) * ((185 : ℤ) : ℝ)) / 100 = 270
    push_cast
    norm_num
  have hdecshapep : (signedPairErs.getD 0 junkEnriched).decay =
      decay_for defaultSettings (q50Of (signedPairTable.map (fun r => r.point_count)))
        (q80Of (signedPairTable.map (fun r => r.point_count)))
        (q95Of (signedPairTable.map (fun r => r.point_count))) ["p", "q"] 100 "p" := rfl
  have hdecshapeq : (signedPairErs.getD 1 junkEnriched).decay =
      decay_for defaultSettings (q50Of (signedPairTable.map (fun r => r.point_count)))
        (q80Of (signedPairTable.map (fun r => r.point_count)))
        (q95Of (signedPairTable.map (fun r => r.point_count))) ["p", "q"] (-100) "q" := rfl
  have hbase : (defaultSettings.forecast_decay_per_hour : ℝ) = 0.15 := by
    show ((15/100 : ℚ) : ℝ) = 0.15
    push_cast
    norm_num
  have hdecp : (signedPairErs.getD 0 junkEnriched).decay = 0.075 := by
    rw [hdecshapep, decay_for_hub_mid defaultSettings _ _ _ ["p", "q"] 100 "p" rfl
      (by rw [hq95]; norm_num) (by rw [hq80]; norm_num) (by rw [hq50]; norm_num), hbase]
    rw [min_eq_right (by norm_num : (0.15 : ℝ) * 0.5 ≤ (0.15 : ℝ) * 1.0)]
    norm_num
  have hdecq : (signedPairErs.getD 1 junkEnriched).decay = 0.075 := by
    rw [hdecshapeq, decay_for_hub_low defaultSettings _ _ _ ["p", "q"] (-100) "q" rfl
      (by rw [hq95]; norm_num) (by rw [hq80]; norm_num) (by rw [hq50]; norm_num), hbase]
    rw [min_eq_right (by norm_num : (0.15 : ℝ) * 0.5 ≤ (0.15 : ℝ) * 1.3)]
    norm_num
  have hsmp : (signedPairErs.getD 0 junkEnriched).smoothed = 100 := by
    show smoothedOf noNeighbors signedPairTable "p" 100 = 100
    rw [smoothedOf_noNeighbors]
    norm_num
  have hsmq : (signedPairErs.getD 1 junkEnriched).smoothed = -100 := by
    show smoothedOf noNeighbors signedPairTable "q" (-100) = -100
    rw [smoothedOf_noNeighbors]
    norm_num
  have hcorrp : (signedPairErs.getD 0 junkEnriched).is_corridor = false := rfl
  have hcorrq : (signedPairErs.getD 1 junkEnriched).is_corridor = false := rfl
  have hrawp : rawPredict (signedPairErs.getD 0 junkEnriched) 60 =
      100 * Real.exp (-(0.075 : ℝ)) := by
    unfold rawPredict
    dsimp only
    rw [if_neg ?hnegp]
    case hnegp =>
      rw [hcorrp]
      simp
    have harg : -((signedPairErs.getD 0 junkEnriched).decay * (((60 : ℤ) : ℝ) / 60)) =
        -(0.075 : ℝ) := by
      rw [hdecp]
      norm_num
    rw [hsmp, harg]
  have hrawq : rawPredict (signedPairErs.getD 1 junkEnriched) 60 =
      -(100 * Real.exp (-(0.075 : ℝ))) := by
    unfold rawPredict
    dsimp only
    rw [if_neg ?hnegq]
    case hnegq =>
      rw [hcorrq]
      simp
    have harg : -((signedPairErs.getD 1 junkEnriched).decay * (((60 : ℤ) : ℝ) / 60)) =
        -(0.075 : ℝ) := by
      rw [hdecq]
      norm_num
    rw [hsmq, harg]
    ring
  have hppos : 0 < rawPredict (signedPairErs.getD 0 junkEnriched) 60 := by
    rw [hrawp]
    positivity
  have hqneg : rawPredict (signedPairErs.getD 1 junkEnriched) 60 < 0 := by
    rw [hrawq]
    have := Real.exp_pos (-(0.075 : ℝ))
    nlinarith
  have hmax : maxPredByH signedPairErs 60 = rawPredict (signedPairErs.getD 0 junkEnriched) 60 := by
    show (if rawPredict (signedPairErs.getD 1 junkEnriched) 60 >
        (if rawPredict (signedPairErs.getD 0 junkEnriched) 60 > 0
          then rawPredict (signedPairErs.getD 0 junkEnriched) 60 else 0)
        then rawPredict (signedPairErs.getD 1 junkEnriched) 60
        else (if rawPredict (signedPairErs.getD 0 junkEnriched) 60 > 0
          then rawPredict (signedPairErs.getD 0 junkEnriched) 60 else 0)) =
      rawPredict (signedPairErs.getD 0 junkEnriched) 60
    rw [if_pos hppos, if_neg (not_lt.mpr (le_of_lt (lt_trans hqneg hppos)))]
  have hvals : predValsByH signedPairErs 60 =
      [rawPredict (signedPairErs.getD 0 junkEnriched) 60,
       rawPredict (signedPairErs.getD 1 junkEnriched) 60] := rfl
  have hsort : ([rawPredict (signedPairErs.getD 0 junkEnriched) 60,
      rawPredict (signedPairErs.getD 1 junkEnriched) 60].insertionSort (· ≤ ·)) =
      [rawPredict (signedPairErs.getD 1 junkEnriched) 60,
       rawPredict (signedPairErs.getD 0 junkEnriched) 60] := by
    show (if rawPredict (signedPairErs.getD 0 junkEnriched) 60 ≤
        rawPredict (signedPairErs.getD 1 junkEnriched) 60
        then [rawPredict (signedPairErs.getD 0 junkEnriched) 60,
          rawPredict (signedPairErs.getD 1 junkEnriched) 60]
        else [rawPredict (signedPairErs.getD 1 junkEnriched) 60,
          rawPredict (signedPairErs.getD 0 junkEnriched) 60]) =
      [rawPredict (signedPairErs.getD 1 junkEnriched) 60,
       rawPredict (signedPairErs.getD 0 junkEnriched) 60]
    rw [if_neg (not_le.mpr (lt_trans hqneg hppos))]
  have hfl : ⌊(0.95 : ℝ)⌋ = 0 := by
    apply Int.floor_eq_zero_iff.mpr
    rw [Set.mem_Ico]
    norm_num
  have hp95 : p95ByH signedPairErs 60 = rawPredict (signedPairErs.getD 1 junkEnriched) 60 := by
    unfold p95ByH
    rw [hvals]
    dsimp only
    have hargf : (0.95 : ℝ) * ((([rawPredict (signedPairErs.getD 0 junkEnriched) 60,
        rawPredict (signedPairErs.getD 1 junkEnriched) 60].length : ℕ) : ℝ) - 1) =
        (0.95 : ℝ) := by
      norm_num
    rw [hargf, hfl]
    rw [hsort]
    rfl
  have hdenom0 : demandDenomByH signedPairErs 60 = 0 := by
    rw [demandDenomByH_eq signedPairErs 60 (by rw [hvals]; simp), hmax, hp95,
      if_neg (ne_of_gt hppos), if_neg (ne_of_lt hqneg), hrawp, hrawq]
    ring
  refine ⟨by rw [hmax]; exact ne_of_gt hppos, hdenom0, ?_⟩
  rw [← demandDenomByH_eq signedPairErs 60 (by rw [hvals]; simp)]
  exact hdenom0

/-- C4 counterexample. The claim asserts the half-width equals
`1.96·sqrt(predicted)·scale` for all predicted ≥ 0; at `predicted = 1` (with
the neutral tier scale 1.0) the code recomputes the half-width from the
zero-clipped interval, giving `(2.96 - 0)/2 = 1.48 ≠ 1.96`. -/
theorem c4_half_width_clipped_below_threshold :
    halfWidthFor 1 1 ≠ 1.96 * Real.sqrt 1 * 1 := by
  unfold halfWidthFor poisson_ci
  rw [if_neg (by norm_num : ¬ (1 : ℝ) ≤ 0), Real.sqrt_one]
  dsimp only
  rw [max_eq_left (by norm_num : (1 : ℝ) - 1.96 * 1 ≤ 0)]
  norm_num

/-- C4, amended: the half-width is `(upper - lower)/2 · scale` recomputed from
the zero-clipped normal approximation `_poisson_ci`. It equals
`1.96·sqrt(predicted)·scale` exactly when `predicted ≤ 0` (both are zero) or
`predicted ≥ 1.96²`; for `0 < predicted < 1.96²` the clipping makes it
`(predicted + 1.96·sqrt(predicted))/2 · scale`. The bounds are
`lower = max(0, predicted − half_width)`, `upper = predicted + half_width`
in every case. -/
theorem c4_half_width :
    ∀ scale mid : ℝ,
      ((mid ≤ 0 ∨ 1.96 ^ 2 ≤ mid) →
        halfWidthFor scale mid = 1.96 * Real.sqrt mid * scale) ∧
      (0 < mid → mid < 1.96 ^ 2 →
        halfWidthFor scale mid = (mid + 1.96 * Real.sqrt mid) / 2 * scale) ∧
      ciBoundsFor scale mid =
        (max 0 (mid - halfWidthFor scale mid), mid + halfWidthFor scale mid) := by
  intro scale mid
  refine ⟨?_, ?_, rfl⟩
  · rintro (hm | hm)
    · unfold halfWidthFor poisson_ci
      rw [if_pos hm]
      have : Real.sqrt mid = 0 := by
        rcases eq_or_lt_of_le hm with he | hlt
        · rw [he, Real.sqrt_zero]
        · exact Real.sqrt_eq_zero_of_nonpos hm
      rw [this]
      ring
    · have hpos : (0 : ℝ) < mid := lt_of_lt_of_le (by norm_num) hm
      have hs196 : (1.96 : ℝ) ≤ Real.sqrt mid := by
        have := Real.sqrt_le_sqrt hm
        rwa [Real.sqrt_sq (by norm_num : (0:ℝ) ≤ 1.96)] at this
      have hms : Real.sqrt mid * Real.sqrt mid = mid := Real.mul_self_sqrt (le_of_lt hpos)
      have hlow : 0 ≤ mid - 1.96 * Real.sqrt mid := by nlinarith [Real.sqrt_nonneg mid]
      unfold halfWidthFor poisson_ci
      rw [if_neg (not_le.mpr hpos)]
      dsimp only
      rw [max_eq_right hlow]
      ring
  · intro hpos hlt
    have hs : Real.sqrt mid < 1.96 := by
      have := Real.sqrt_lt_sqrt (le_of_lt hpos) hlt
      rwa [Real.sqrt_sq (by norm_num : (0:ℝ) ≤ 1.96)] at this
    have hsp : 0 < Real.sqrt mid := Real.sqrt_pos.mpr hpos
    have hms : Real.sqrt mid * Real.sqrt mid = mid := Real.mul_self_sqrt (le_of_lt hpos)
    have hlow : mid - 1.96 * Real.sqrt mid ≤ 0 := by nlinarith
    unfold halfWidthFor poisson_ci
    rw [if_neg (not_le.mpr hpos)]
    dsimp only
    rw [max_eq_left hlow]
    ring

/-- C4 witness: at `predicted = 4 ≥ 1.96²` with scale 2 the claimed formula
holds. -/
theorem c4_half_width_witness :
    halfWidthFor 2 4 = 1.96 * Real.sqrt 4 * 2 :=
  (c4_half_width 2 4).1 (Or.inr (by norm_num))

/-- C7. For every cell in a forecast result, `suppressed` is true iff
`point_count < k` or `unique_trip_count < k` for the configured privacy
threshold `k`. -/
theorem c7_suppressed_iff :
    ∀ (s : Settings) (kRing : String → List String) (hubs corridors : List String)
      (res : ℕ) (table : List Row) (horizons : List ℤ) (now : ℕ),
      ∀ c ∈ payloadCells (generate_forecast s kRing hubs corridors res table horizons now),
        (c.suppressed = true ↔
          c.current_count < s.suppress_k ∨ c.unique_trips < s.suppress_k) := by
  intro s kRing hubs corridors res table horizons now c hc
  rcases hv : validateHorizons s horizons with e | hs
  · rw [generate_forecast, hv] at hc
    exact absurd hc (List.not_mem_nil c)
  · rw [generate_forecast, hv] at hc
    rcases table with _ | ⟨r0, rest⟩
    · exact absurd hc (List.not_mem_nil c)
    · unfold payloadCells forecastPayload at hc
      dsimp only at hc
      obtain ⟨row, hrow, rfl⟩ := List.mem_map.mp hc
      unfold enrich at hrow
      obtain ⟨r, _, rfl⟩ := List.mem_map.mp hrow
      dsimp only
      simp [Bool.or_eq_true, decide_eq_true_eq]

/-- C7 witness: concrete single-cell run with counts (1, 2) and k = 20. -/
theorem c7_suppressed_iff_witness :
    ((payloadCells (generate_forecast defaultSettings noNeighbors [] [] 8
        [⟨"a", 1, 2⟩] [60] 0)).getD 0 ⟨"", 0, 0, false, false, false, 0, []⟩).suppressed = true ↔
      ((payloadCells (generate_forecast defaultSettings noNeighbors [] [] 8
        [⟨"a", 1, 2⟩] [60] 0)).getD 0 ⟨"", 0, 0, false, false, false, 0, []⟩).current_count <
          defaultSettings.suppress_k ∨
      ((payloadCells (generate_forecast defaultSettings noNeighbors [] [] 8
        [⟨"a", 1, 2⟩] [60] 0)).getD 0 ⟨"", 0, 0, false, false, false, 0, []⟩).unique_trips <
          defaultSettings.suppress_k :=
  c7_suppressed_iff defaultSettings noNeighbors [] [] 8 [⟨"a", 1, 2⟩] [60] 0 _
    (getD_mem_of_lt _ 0 _ (by decide))

/-- C8 counterexample. With a single cell, `len(counts) > 1` fails and the
code's quantile fallback yields `q50 = 0`, not 100 as the claim states. -/
theorem c8_single_cell_quantiles_zero :
    q50Of (c8Table.map (fun r => r.point_count)) ≠ 100 := by
  have h : q50Of (c8Table.map (fun r => r.point_count)) = 0 := rfl
  rw [h]
  norm_num

/-- C8, amended: for the single isolated cell with
`point_count = unique_trip_count = 100` and base decay 0.15/hour, the
single-element fallback gives `q50 = q80 = q95 = 0`; since `100 ≥ 0 = q95`
the highest-density tier still applies, so `λ = 0.15 × 0.4 = 0.06` and the
prediction for horizon 60 minutes is exactly `100·e^(−0.06)` (≈ 94.18). -/
theorem c8_single_cell_run :
    q50Of (c8Table.map (fun r => r.point_count)) = 0 ∧
    q80Of (c8Table.map (fun r => r.point_count)) = 0 ∧
    q95Of (c8Table.map (fun r => r.point_count)) = 0 ∧
    (c8Ers.getD 0 junkEnriched).decay = 0.06 ∧
    rawPredict (c8Ers.getD 0 junkEnriched) 60 = 100 * Real.exp (-(0.06)) := by
  have h95 : q95Of (c8Table.map (fun r => r.point_count)) = 0 := rfl
  have hdecshape : (c8Ers.getD 0 junkEnriched).decay =
      decay_for defaultSettings (q50Of (c8Table.map (fun r => r.point_count)))
        (q80Of (c8Table.map (fun r => r.point_count)))
        (q95Of (c8Table.map (fun r => r.point_count))) [] 100 "c" := rfl
  have hdec : (c8Ers.getD 0 junkEnriched).decay = 0.06 := by
    rw [hdecshape,
      decay_for_no_hub_top defaultSettings _ _ _ 100 "c" (by rw [h95]; norm_num)]
    show ((15/100 : ℚ) : ℝ) * 0.4 = 0.06
    push_cast
    norm_num
  have hsm : (c8Ers.getD 0 junkEnriched).smoothed = 100 := by
    show smoothedOf noNeighbors c8Table "c" 100 = 100
    rw [smoothedOf_noNeighbors]
    norm_num
  have hcorr : (c8Ers.getD 0 junkEnriched).is_corridor = false := rfl
  refine ⟨rfl, rfl, rfl, hdec, ?_⟩
  unfold rawPredict
  dsimp only
  rw [if_neg ?hneg]
  case hneg =>
    rw [hcorr]
    simp
  have harg : -((c8Ers.getD 0 junkEnriched).decay * (((60 : ℤ) : ℝ) / 60)) =
      -(0.06 : ℝ) := by
    rw [hdec]
    norm_num
  rw [hsm, harg]

/-- C9 counterexample. The claim quantifies over every ingestion path, but the
precomputed-aggregate path copies `point_count` and `unique_trips` through
unvalidated: a table row with `unique_trips > point_count` is registered
as-is. -/
theorem c9_precomputed_unvalidated :
    precomputedTableFor [⟨"a", 8, 1, 5⟩] 8 = [⟨"a", 1, 5⟩] ∧
      ¬ ((⟨"a", 1, 5⟩ : Row).unique_trips ≤ (⟨"a", 1, 5⟩ : Row).point_count) :=
  ⟨rfl, by decide⟩

/-- C9, amended: for every CellAggregate produced by the streaming raw-point
aggregation path, `unique_trip_count ≤ point_count` (each consumed point
increments the cell's point count by one and adds at most one new id to its
distinct-trip set); the precomputed path stores the supplied counts without
enforcing this. -/
theorem c9_streaming_unique_le_points :
    ∀ (pts : List (String × String)) (c : String),
      (finalizeCell (accumulate pts) c).unique_trips ≤
        (finalizeCell (accumulate pts) c).point_count := by
  intro pts c
  have hcard := accumulate_card_le pts (fun _ => Bucket.empty)
    (fun _ => by simp [Bucket.empty]) c
  show ((accumulate pts c).ids.card : ℤ) ≤ ((accumulate pts c).points : ℤ)
  exact_mod_cast hcard

/-- C10 counterexample. The claim asserts `0 ≤ lower ≤ predicted ≤ upper` for
every emitted record, but the precomputed ingestion path registers CSV count
columns unvalidated: a cell with `point_count = -100` yields a negative raw
prediction, `_poisson_ci` returns `(0, 0)` (half-width 0), so the emitted
record has `lower = 0 > predicted` — `predicted < lower`. -/
theorem c10_negative_count_breaks_lower_le_predicted :
    precomputedTableFor [⟨"n", 8, -100, 1⟩] 8 = c10Table ∧
      ((c10RunCells.getD 0 junkCell).predictions.getD 0 junkPred).2.predicted <
        ((c10RunCells.getD 0 junkCell).predictions.getD 0 junkPred).2.lower := by
  refine ⟨rfl, ?_⟩
  have h95 : q95Of (c10Table.map (fun r => r.point_count)) = 0 := rfl
  have h80 : q80Of (c10Table.map (fun r => r.point_count)) = 0 := rfl
  have h50 : q50Of (c10Table.map (fun r => r.point_count)) = 0 := rfl
  have hdecshape : (c10Ers.getD 0 junkEnriched).decay =
      decay_for defaultSettings (q50Of (c10Table.map (fun r => r.point_count)))
        (q80Of (c10Table.map (fun r => r.point_count)))
        (q95Of (c10Table.map (fun r => r.point_count))) [] (-100) "n" := rfl
  have hdec : (c10Ers.getD 0 junkEnriched).decay = 0.195 := by
    rw [hdecshape, decay_for_no_hub_low defaultSettings _ _ _ (-100) "n"
      (by rw [h95]; norm_num) (by rw [h80]; norm_num) (by rw [h50]; norm_num)]
    show ((15/100 : ℚ) : ℝ) * 1.3 = 0.195
    push_cast
    norm_num
  have hsm : (c10Ers.getD 0 junkEnriched).smoothed = -100 := by
    show smoothedOf noNeighbors c10Table "n" (-100) = -100
    rw [smoothedOf_noNeighbors]
    norm_num
  have hcorr : (c10Ers.getD 0 junkEnriched).is_corridor = false := rfl
  have hraw : rawPredict (c10Ers.getD 0 junkEnriched) 60 =
      -(100 * Real.exp (-(0.195 : ℝ))) := by
    unfold rawPredict
    dsimp only
    rw [if_neg ?hneg10]
    case hneg10 =>
      rw [hcorr]
      simp
    have harg : -((c10Ers.getD 0 junkEnriched).decay * (((60 : ℤ) : ℝ) / 60)) =
        -(0.195 : ℝ) := by
      rw [hdec]
      norm_num
    rw [hsm, harg]
    ring
  have hrawle : rawPredict (c10Ers.getD 0 junkEnriched) 60 ≤ -80 := by
    rw [hraw]
    have hexp : (1 : ℝ) + -(0.195) ≤ Real.exp (-(0.195)) := by
      have := Real.add_one_le_exp (-(0.195 : ℝ))
      linarith
    nlinarith
  have hpredshape : ((c10RunCells.getD 0 junkCell).predictions.getD 0 junkPred).2.predicted =
      pyRound (rawPredict (c10Ers.getD 0 junkEnriched) 60) 3 := rfl
  have hlowshape : ((c10RunCells.getD 0 junkCell).predictions.getD 0 junkPred).2.lower =
      pyRound (ciBoundsFor (ciScaleFor (q50Of (c10Table.map (fun r => r.point_count)))
        (q95Of (c10Table.map (fun r => r.point_count)))
        (c10Ers.getD 0 junkEnriched).point_count)
        (rawPredict (c10Ers.getD 0 junkEnriched) 60)).1 3 := rfl
  have hlow_nn : 0 ≤ ((c10RunCells.getD 0 junkCell).predictions.getD 0 junkPred).2.lower := by
    rw [hlowshape]
    exact pyRound_nonneg 3 (ciBoundsFor_weak_bounds
      (ciScaleFor_nonneg _ _ (c10Ers.getD 0 junkEnriched).point_count) _).1
  have hpred_neg : ((c10RunCells.getD 0 junkCell).predictions.getD 0 junkPred).2.predicted < 0 := by
    rw [hpredshape]
    unfold pyRound
    have h1 := pyRoundInt_le_add_half (rawPredict (c10Ers.getD 0 junkEnriched) 60 * 10 ^ 3)
    have h2 : rawPredict (c10Ers.getD 0 junkEnriched) 60 * 10 ^ 3 ≤ -80000 := by
      nlinarith
    have h3 : (pyRoundInt (rawPredict (c10Ers.getD 0 junkEnriched) 60 * 10 ^ 3) : ℝ) < 0 := by
      set a : ℝ := (pyRoundInt (rawPredict (c10Ers.getD 0 junkEnriched) 60 * 10 ^ 3) : ℝ) with ha
      linarith
    have h4 : (0 : ℝ) < 10 ^ 3 := by norm_num
    exact div_neg_of_neg_of_pos h3 h4
  linarith

/-- C10, amended: every emitted prediction record satisfies `0 ≤ lower` and
`predicted ≤ upper` unconditionally (before and after rounding), and the full
chain `0 ≤ lower ≤ predicted ≤ upper` holds whenever every `point_count` in
the table is nonnegative — always true for the streaming aggregation path,
but not enforced on the precomputed path, where a negative `point_count`
yields `predicted < 0 = lower`. -/
theorem c10_prediction_bounds :
    ∀ (s : Settings) (kRing : String → List String) (hubs corridors : List String)
      (res : ℕ) (table : List Row) (horizons : List ℤ) (now : ℕ),
      (∀ er ∈ enrich s kRing hubs corridors table, ∀ (h : ℤ) (a b : ℝ),
        0 ≤ (ciBoundsFor (ciScaleFor a b er.point_count) (rawPredict er h)).1 ∧
        rawPredict er h ≤ (ciBoundsFor (ciScaleFor a b er.point_count) (rawPredict er h)).2) ∧
      (∀ c ∈ payloadCells (generate_forecast s kRing hubs corridors res table horizons now),
        ∀ he ∈ c.predictions, 0 ≤ he.2.lower ∧ he.2.predicted ≤ he.2.upper) ∧
      ((∀ r ∈ table, 0 ≤ r.point_count) →
        (∀ er ∈ enrich s kRing hubs corridors table, ∀ (h : ℤ) (a b : ℝ),
          (ciBoundsFor (ciScaleFor a b er.point_count) (rawPredict er h)).1 ≤
            rawPredict er h) ∧
        (∀ c ∈ payloadCells (generate_forecast s kRing hubs corridors res table horizons now),
          ∀ he ∈ c.predictions, he.2.lower ≤ he.2.predicted)) := by
  intro s kRing hubs corridors res table horizons now
  refine ⟨?_, ?_, ?_⟩
  · intro er _ h a b
    exact ciBoundsFor_weak_bounds (ciScaleFor_nonneg a b er.point_count) (rawPredict er h)
  · intro c hc he hhe
    rcases hv : validateHorizons s horizons with e | hs
    · rw [generate_forecast, hv] at hc
      exact absurd hc (List.not_mem_nil c)
    rw [generate_forecast, hv] at hc
    rcases table with _ | ⟨r0, rest⟩
    · exact absurd hc (List.not_mem_nil c)
    unfold payloadCells forecastPayload at hc
    dsimp only at hc
    obtain ⟨row, hrow, rfl⟩ := List.mem_map.mp hc
    dsimp only at hhe
    obtain ⟨h, hh, rfl⟩ := List.mem_map.mp hhe
    rcases hpr : predRowFor (enrich s kRing hubs corridors (r0 :: rest)) row.h3 with _ | er
    · have hb := ciBoundsFor_weak_bounds
        (ciScaleFor_nonneg (q50Of ((r0 :: rest).map (fun r => r.point_count)))
          (q95Of ((r0 :: rest).map (fun r => r.point_count))) row.point_count)
        (rawPredict row h)
      unfold entryFor
      dsimp only
      exact ⟨pyRound_nonneg 3 hb.1, pyRound_mono 3 hb.2⟩
    · have hb := ciBoundsFor_weak_bounds
        (ciScaleFor_nonneg (q50Of ((r0 :: rest).map (fun r => r.point_count)))
          (q95Of ((r0 :: rest).map (fun r => r.point_count))) er.point_count)
        (rawPredict er h)
      unfold entryFor
      dsimp only
      exact ⟨pyRound_nonneg 3 hb.1, pyRound_mono 3 hb.2⟩
  · intro htab
    constructor
    · intro er her h a b
      exact (ciBoundsFor_bounds (ciScaleFor_nonneg a b er.point_count)
        (rawPredict_nonneg (enrich_smoothed_nonneg htab her) h)).2.1
    · intro c hc he hhe
      rcases hv : validateHorizons s horizons with e | hs
      · rw [generate_forecast, hv] at hc
        exact absurd hc (List.not_mem_nil c)
      rw [generate_forecast, hv] at hc
      rcases table with _ | ⟨r0, rest⟩
      · exact absurd hc (List.not_mem_nil c)
      unfold payloadCells forecastPayload at hc
      dsimp only at hc
      obtain ⟨row, hrow, rfl⟩ := List.mem_map.mp hc
      dsimp only at hhe
      obtain ⟨h, hh, rfl⟩ := List.mem_map.mp hhe
      rcases hpr : predRowFor (enrich s kRing hubs corridors (r0 :: rest)) row.h3 with _ | er
      · have hb := ciBoundsFor_bounds
          (ciScaleFor_nonneg (q50Of ((r0 :: rest).map (fun r => r.point_count)))
            (q95Of ((r0 :: rest).map (fun r => r.point_count))) row.point_count)
          (rawPredict_nonneg (enrich_smoothed_nonneg htab hrow) h)
        unfold entryFor
        dsimp only
        exact pyRound_mono 3 hb.2.1
      · have hpr2 : (enrich s kRing hubs corridors (r0 :: rest)).reverse.find?
            (fun e => e.h3 = row.h3) = some er := hpr
        have her : er ∈ enrich s kRing hubs corridors (r0 :: rest) :=
          List.mem_reverse.mp (List.mem_of_find?_eq_some hpr2)
        have hb := ciBoundsFor_bounds
          (ciScaleFor_nonneg (q50Of ((r0 :: rest).map (fun r => r.point_count)))
            (q95Of ((r0 :: rest).map (fun r => r.point_count))) er.point_count)
          (rawPredict_nonneg (enrich_smoothed_nonneg htab her) h)
        unfold entryFor
        dsimp only
        exact pyRound_mono 3 hb.2.1

/-- C10 witness: all parts at the concrete single-cell scenario-3 run, whose
counts are nonnegative. -/
theorem c10_prediction_bounds_witness :
    (0 ≤ (ciBoundsFor (ciScaleFor 0 0 (c8Ers.getD 0 junkEnriched).point_count)
        (rawPredict (c8Ers.getD 0 junkEnriched) 60)).1 ∧
      rawPredict (c8Ers.getD 0 junkEnriched) 60 ≤
        (ciBoundsFor (ciScaleFor 0 0 (c8Ers.getD 0 junkEnriched).point_count)
          (rawPredict (c8Ers.getD 0 junkEnriched) 60)).2) ∧
    (0 ≤ ((c8RunCells.getD 0 junkCell).predictions.getD 0 junkPred).2.lower ∧
      ((c8RunCells.getD 0 junkCell).predictions.getD 0 junkPred).2.predicted ≤
        ((c8RunCells.getD 0 junkCell).predictions.getD 0 junkPred).2.upper) ∧
    ((ciBoundsFor (ciScaleFor 0 0 (c8Ers.getD 0 junkEnriched).point_count)
        (rawPredict (c8Ers.getD 0 junkEnriched) 60)).1 ≤
      rawPredict (c8Ers.getD 0 junkEnriched) 60) ∧
    (((c8RunCells.getD 0 junkCell).predictions.getD 0 junkPred).2.lower ≤
      ((c8RunCells.getD 0 junkCell).predictions.getD 0 junkPred).2.predicted) :=
  ⟨(c10_prediction_bounds defaultSettings noNeighbors [] [] 8 c8Table [60] 0).1
      _ (getD_mem_of_lt _ 0 junkEnriched (by decide)) 60 0 0,
    (c10_prediction_bounds defaultSettings noNeighbors [] [] 8 c8Table [60] 0).2.1
      _ (getD_mem_of_lt _ 0 junkCell (by decide))
      _ (getD_mem_of_lt _ 0 junkPred (by decide)),
    ((c10_prediction_bounds defaultSettings noNeighbors [] [] 8 c8Table [60] 0).2.2
      (by decide)).1
      _ (getD_mem_of_lt _ 0 junkEnriched (by decide)) 60 0 0,
    ((c10_prediction_bounds defaultSettings noNeighbors [] [] 8 c8Table [60] 0).2.2
      (by decide)).2
      _ (getD_mem_of_lt _ 0 junkCell (by decide))
      _ (getD_mem_of_lt _ 0 junkPred (by decide))⟩

end HeatmapBff
